import Mathlib

/-
Shallow embedding of src/src/main.py (TextToSQL): a LangGraph agent that
introspects a SQLite movie database, asks an LLM to describe the schema,
and then runs a planner/tool loop (sql_connector + web search) to answer a
natural-language question.

External collaborators (SQLite engine, the LLM, web search) are opaque
oracles carried in an `Env`; the Python/library semantics the source relies
on (zip, argument unpacking, the sqlite3 connection context manager,
langgraph's add_messages reducer, ToolNode and tools_condition) are
embedded explicitly, following their documented behaviour.
-/

namespace TextToSQL

/-- A Python runtime value as far as this program manipulates them: strings,
integers, tuples (database rows) and lists (result sets). -/
inductive PyVal where
  | str : String → PyVal
  | intV : Int → PyVal
  | tuple : List PyVal → PyVal
  | listV : List PyVal → PyVal

mutual

/-- Boolean equality on Python values (deriving does not handle the nested
inductive, so it is spelt out). -/
def pyBeq : PyVal → PyVal → Bool
  | PyVal.str a, PyVal.str b => a == b
  | PyVal.intV a, PyVal.intV b => a == b
  | PyVal.tuple a, PyVal.tuple b => pyBeqList a b
  | PyVal.listV a, PyVal.listV b => pyBeqList a b
  | _, _ => false

/-- Boolean equality on lists of Python values. -/
def pyBeqList : List PyVal → List PyVal → Bool
  | [], [] => true
  | a :: as, b :: bs => pyBeq a b && pyBeqList as bs
  | _, _ => false

end

mutual

theorem pyBeq_iff : ∀ (a b : PyVal), pyBeq a b = true ↔ a = b
  | PyVal.str _, PyVal.str _ => by simp [pyBeq]
  | PyVal.str _, PyVal.intV _ => by simp [pyBeq]
  | PyVal.str _, PyVal.tuple _ => by simp [pyBeq]
  | PyVal.str _, PyVal.listV _ => by simp [pyBeq]
  | PyVal.intV _, PyVal.str _ => by simp [pyBeq]
  | PyVal.intV _, PyVal.intV _ => by simp [pyBeq]
  | PyVal.intV _, PyVal.tuple _ => by simp [pyBeq]
  | PyVal.intV _, PyVal.listV _ => by simp [pyBeq]
  | PyVal.tuple _, PyVal.str _ => by simp [pyBeq]
  | PyVal.tuple _, PyVal.intV _ => by simp [pyBeq]
  | PyVal.tuple a, PyVal.tuple b => by simp [pyBeq, pyBeqList_iff a b]
  | PyVal.tuple _, PyVal.listV _ => by simp [pyBeq]
  | PyVal.listV _, PyVal.str _ => by simp [pyBeq]
  | PyVal.listV _, PyVal.intV _ => by simp [pyBeq]
  | PyVal.listV _, PyVal.tuple _ => by simp [pyBeq]
  | PyVal.listV a, PyVal.listV b => by simp [pyBeq, pyBeqList_iff a b]

theorem pyBeqList_iff : ∀ (a b : List PyVal), pyBeqList a b = true ↔ a = b
  | [], [] => by simp [pyBeqList]
  | [], _ :: _ => by simp [pyBeqList]
  | _ :: _, [] => by simp [pyBeqList]
  | a :: as, b :: bs => by
      simp [pyBeqList, Bool.and_eq_true, pyBeq_iff a b, pyBeqList_iff as bs]

end

instance : DecidableEq PyVal := fun a b => decidable_of_iff _ (pyBeq_iff a b)

/-- Default value used only to express list indexing totally. -/
def dflt : PyVal := PyVal.intV 0

mutual

/-- Python repr() of a value, as far as the claims need it: tuples print with
parentheses (one-element tuples with a trailing comma), lists with brackets,
strings single-quoted (escape subtleties of repr are not modelled, no claim
depends on them). -/
def pyRepr : PyVal → String
  | PyVal.str s => "\x27" ++ s ++ "\x27"
  | PyVal.intV n => toString n
  | PyVal.tuple [] => "()"
  | PyVal.tuple [x] => "(" ++ pyRepr x ++ ",)"
  | PyVal.tuple (x :: y :: xs) => "(" ++ pyRepr x ++ ", " ++ pyReprJoin (y :: xs) ++ ")"
  | PyVal.listV xs => "[" ++ pyReprJoin xs ++ "]"

/-- Comma-separated reprs of a list of values. -/
def pyReprJoin : List PyVal → String
  | [] => ""
  | [x] => pyRepr x
  | x :: y :: xs => pyRepr x ++ ", " ++ pyReprJoin (y :: xs)

end

/-- Python str() of a value: a string prints as itself, every other value as
its repr. -/
def pyToStr : PyVal → String
  | PyVal.str s => s
  | v => pyRepr v

/-- Python iteration: iterating a string yields its characters as one-character
strings, iterating a tuple or a list yields its elements; an int is not
iterable (none = TypeError). -/
def pyIter : PyVal → Option (List PyVal)
  | PyVal.str s => some (s.data.map (fun c => PyVal.str (String.mk [c])))
  | PyVal.tuple xs => some xs
  | PyVal.listV xs => some xs
  | PyVal.intV _ => none

/-- Outcome of handing a query string to the SQLite engine: a list of rows
(each row a tuple of values) or an engine-level error (sqlite3.Error) with its
message. -/
inductive QueryOutcome where
  | ok : List (List PyVal) → QueryOutcome
  | err : String → QueryOutcome
deriving DecidableEq

/-- The opaque structured store: what the SQLite engine answers to each query
string. -/
def Store := String → QueryOutcome

/-- The fixed column-metadata discovery query (literal from the source). -/
def SQL_SCHEMA_QUERY : String :=
  "
WITH column_info AS (
    SELECT
        name AS column_name,
        type AS data_type
    FROM
        pragma_table_info(\x27movies\x27)
)
SELECT
    column_info.column_name,
    column_info.data_type
FROM
    column_info;
"

/-- The fixed sample-rows discovery query (literal from the source). -/
def SQL_EXAMPLE_QUERY : String := "SELECT * FROM movies LIMIT 5"

/-- The error text sql_connector builds from a caught sqlite3.Error, per the
f-string in the source. -/
def sqlErrorText (e : String) : String :=
  "Error occurred during sql execution: " ++ e

/-- sql_connector from the source: runs the query and returns either the
fetched rows (a Python list of tuples) or, when the engine raises a
sqlite3.Error, the descriptive error string — the except-clause turns the
failure into an ordinary return value, so the function is total. -/
def sql_connector (store : Store) (sql_query : String) : PyVal :=
  match store sql_query with
  | QueryOutcome.ok rows => PyVal.listV (rows.map PyVal.tuple)
  | QueryOutcome.err e => PyVal.str (sqlErrorText e)

/-- Observable engine-level events of one sql_connector call. -/
inductive DbEvent where
  | openConn
  | execQuery : String → DbEvent
  | fetchall
  | commit
  | rollback
  | close
deriving DecidableEq

/-- The event trace of one sql_connector call. `with sqlite3.connect(...)`
opens a fresh connection; per the Python sqlite3 documentation the connection
context manager commits the pending transaction on normal exit and rolls it
back when the block raises — it does NOT close the connection. The failing
case models the engine raising at execute, so no rows are fetched. -/
def sql_connector_events (store : Store) (sql_query : String) : List DbEvent :=
  match store sql_query with
  | QueryOutcome.ok _ =>
      [DbEvent.openConn, DbEvent.execQuery sql_query, DbEvent.fetchall, DbEvent.commit]
  | QueryOutcome.err _ =>
      [DbEvent.openConn, DbEvent.execQuery sql_query, DbEvent.rollback]

/-- One step structure of Python zip over a first iterable `l` and the
remaining iterables `rest` (already forced to element lists): emit a tuple of
heads while every iterable still has an element, stop as soon as any is
exhausted. -/
def zipCols : List PyVal → List (List PyVal) → List PyVal
  | [], _ => []
  | x :: xs, rest =>
      if rest.all (fun r => !r.isEmpty) then
        PyVal.tuple (x :: rest.map (fun r => r.headD dflt)) :: zipCols xs (rest.map List.tail)
      else []

/-- Python zip over the element lists of its argument iterables; zip of no
iterables is empty. -/
def pyZip : List (List PyVal) → List PyVal
  | [] => []
  | l :: rest => zipCols l rest

/-- The expression `list(zip(db_schema, *db_examples))` from get_schema:
`*db_examples` unpacks the second value into individual arguments (characters
when it is an error string), then every argument is iterated by zip. none
models a TypeError from iterating a non-iterable (unreachable for
sql_connector outputs). -/
def schemaZip (db_schema db_examples : PyVal) : Option PyVal :=
  match pyIter db_examples with
  | none => none
  | some elems =>
      match pyIter db_schema with
      | none => none
      | some l =>
          if elems.all (fun e => (pyIter e).isSome) then
            some (PyVal.listV (pyZip (l :: elems.map (fun e => (pyIter e).getD []))))
          else none

/-- The value get_schema stores into the schema field: both discovery queries
run through sql_connector and their results zipped. -/
def get_schema_result (store : Store) : Option PyVal :=
  schemaZip (sql_connector store SQL_SCHEMA_QUERY) (sql_connector store SQL_EXAMPLE_QUERY)

/-- The fixed instruction for the Schema Describer call (literal from the
source). -/
def SQL_SCHEMA_DETAILS_PROMPT : String :=
  "You are expert in writing SQLite queries. Your task is to return the schema description.
You will receive the below details:
1. Column name
2. Column data type
3. Example values

Input format:
[((<column name>, <data type>), <example value>, <example value>, ...), .....]

Your responsibilities include:

1. Analyzing the provided schema and data to understand the database structure.
2. Creating comprehensive column descriptions that explain the purpose and content of each field.
3. Developing query strategies that account for data type inconsistencies or special handling requirements.
4. Providing clear explanations on how to properly query each column, including any necessary data type conversions or special considerations.
5. Suggesting best practices for working with the given schema and data types.
6. Handle text columns by converting to lowercase in queries and use LIKE approach for text searches

When encountering data type mismatches or non-standard storage formats (e.g., budget stored as text instead of a numeric type), you will:
1. Provide the correct SQLite syntax for converting or casting the data type within queries.

The response should be in bullet points with below format:
Column name: <column name>
Data type: <data type>
Example: <examples>
How to query: <example to show how to query>
"

/-- The fixed system instruction for the Planner call (literal from the
source). -/
def SYSTEM_PROMPT : String :=
  "You are an advanced SQLite query specialist. Your primary function is to translate user questions into precise SQLite queries to extract relevant data, and provide comprehensive answers using the extracted data. Here\x27s your operational framework:

Input:
1. User\x27s question
2. Database schema details
3. Table name(s)

Your tasks:
1. Analyze the user\x27s question and provided schema.
2. Craft an optimal SQLite query to retrieve the necessary information.
3. Ensure proper handling of case-sensitive values in your queries.
4. Formulate a clear, concise answer based on the extracted data.
5. If any information is missing use web search tool to get the information from internet (eg: missing budget information).

Remember: Your goal is to bridge the gap between natural language questions and database queries, providing valuable insights to the user."

/-- A tool invocation request carried by an assistant message: the call id the
result must echo, the tool name and its argument payload. -/
structure ToolCall where
  id : String
  name : String
  args : String
deriving DecidableEq

/-- A conversation entry: system instruction, human message, assistant (AI)
message carrying zero or more tool calls, or a tool result tagged with the
call id it answers. -/
inductive Msg where
  | system : String → Msg
  | human : String → Msg
  | ai : String → List ToolCall → Msg
  | tool : String → String → Msg
deriving DecidableEq

/-- The State TypedDict of the source: the schema field (none while the key
is still absent, i.e. before get_schema runs) and the message sequence
governed by the add_messages reducer. -/
structure AgentState where
  schema : Option PyVal
  messages : List Msg
deriving DecidableEq

/-- The opaque collaborators of one run: the SQLite engine, the web-search
tool, the tool-bound planner LLM (content and tool calls of its reply) and
the plain describer LLM. -/
structure Env where
  store : Store
  search : String → String
  planner : List Msg → String × List ToolCall
  describer : List Msg → String

/-- The add_messages reducer of the message channel: every update produced by
a node carries fresh entries (new LLM replies and new tool results with fresh
ids), for which the reducer appends to the existing sequence rather than
replacing it. -/
def add_messages (left right : List Msg) : List Msg := left ++ right

/-- The tool calls of the latest message, when it is an assistant message
(what tools_condition and ToolNode inspect). -/
def latestToolCalls (msgs : List Msg) : List ToolCall :=
  match msgs.getLast? with
  | some (Msg.ai _ tcs) => tcs
  | _ => []

/-- The nodes of the compiled graph plus the END sentinel. -/
inductive Node where
  | get_schema
  | get_schema_description
  | get_sql_query
  | tools
  | END
deriving DecidableEq

/-- The get_schema node: writes the zipped discovery structure into the
schema field; its update dict has no messages key, so messages are
untouched. -/
def get_schema (env : Env) (s : AgentState) : AgentState :=
  { s with schema := get_schema_result env.store }

/-- str(state["schema"]) — Python str() of the current schema value (the key
is always present when it is read: get_schema has run first). -/
def schemaText (s : AgentState) : String :=
  match s.schema with
  | some v => pyToStr v
  | none => ""

/-- The get_schema_description node: one describer-LLM call on the fixed
instruction plus the stringified raw schema, whose reply text overwrites the
schema field. -/
def get_schema_description (env : Env) (s : AgentState) : AgentState :=
  { s with
      schema := some (PyVal.str (env.describer
        [Msg.system SQL_SCHEMA_DETAILS_PROMPT, Msg.human (schemaText s)])) }

/-- The prompt get_sql_query assembles for the planner LLM: the fixed system
instruction, a schema-details human message, then the persisted
conversation. -/
def plannerPrompt (s : AgentState) : List Msg :=
  Msg.system SYSTEM_PROMPT
    :: Msg.human ("Schema Details: " ++ schemaText s)
    :: s.messages

/-- The get_sql_query node (the Planner): invokes the tool-bound LLM on the
assembled prompt and appends only the assistant reply to the persisted
messages — the two prompt prefix messages are not part of the update. -/
def get_sql_query (env : Env) (s : AgentState) : AgentState :=
  let r := env.planner (plannerPrompt s)
  { s with messages := add_messages s.messages [Msg.ai r.1 r.2] }

/-- Execution of one requested tool by ToolNode: dispatch by tool name to
sql_connector or the web search, stringifying the sql result the way
ToolNode turns tool output into message content (a string is kept as-is). -/
def execTool (env : Env) (tc : ToolCall) : String :=
  if tc.name = "sql_connector" then pyToStr (sql_connector env.store tc.args)
  else if tc.name = "duckduckgo_results_json" then env.search tc.args
  else "Error: " ++ tc.name ++ " is not a valid tool."

/-- The tools node (ToolNode([sql_connector, search])): executes every tool
call of the latest assistant message and appends one tool result per call,
tagged with the originating call id, in request order. -/
def tools_node (env : Env) (s : AgentState) : AgentState :=
  { s with
      messages := add_messages s.messages
        ((latestToolCalls s.messages).map
          (fun tc => Msg.tool (execTool env tc) tc.id)) }

/-- tools_condition of the graph library: route to the tools node when the
latest assistant message carries at least one tool call, else to END. -/
def tools_condition (s : AgentState) : Node :=
  if latestToolCalls s.messages = [] then Node.END else Node.tools

/-- One node execution. -/
def stepNode (env : Env) : Node → AgentState → AgentState
  | Node.get_schema, s => get_schema env s
  | Node.get_schema_description, s => get_schema_description env s
  | Node.get_sql_query, s => get_sql_query env s
  | Node.tools, s => tools_node env s
  | Node.END, s => s

/-- The edges wired in get_graph: START → get_schema → get_schema_description
→ get_sql_query, the conditional edge tools_condition after get_sql_query
(evaluated on the state the node just produced), and tools → get_sql_query.
The source's extra `add_edge("get_sql_query", END)` only adds a write to the
END sink alongside the conditional branch and does not alter which node runs
next. -/
def nextNode : Node → AgentState → Node
  | Node.get_schema, _ => Node.get_schema_description
  | Node.get_schema_description, _ => Node.get_sql_query
  | Node.get_sql_query, s => tools_condition s
  | Node.tools, _ => Node.get_sql_query
  | Node.END, _ => Node.END

/-- One transition of the compiled graph: run the current node, then route on
the updated state. -/
def stepConfig (env : Env) (c : Node × AgentState) : Node × AgentState :=
  (nextNode c.1 (stepNode env c.1 c.2), stepNode env c.1 c.2)

/-- Fuel-bounded execution of the graph (the source wires no iteration cap;
fuel only truncates, it never changes any step taken). -/
def run (env : Env) : Nat → Node × AgentState → Node × AgentState
  | 0, c => c
  | fuel + 1, c => if c.1 = Node.END then c else run env fuel (stepConfig env c)

/-- The nodes executed, in order, by a fuel-bounded run. -/
def runTrace (env : Env) : Nat → Node × AgentState → List Node
  | 0, _ => []
  | fuel + 1, c =>
      if c.1 = Node.END then [] else c.1 :: runTrace env fuel (stepConfig env c)

/-- The initial configuration of graph.invoke({"messages": [HumanMessage
(question)]}): the schema key absent, the conversation holding only the
question, control entering at get_schema. -/
def startConfig (question : String) : Node × AgentState :=
  (Node.get_schema, { schema := none, messages := [Msg.human question] })

/-- sql_agent from the source: compile the graph and invoke it on the
question, returning the final state. -/
def sql_agent (env : Env) (fuel : Nat) (question : String) : AgentState :=
  (run env fuel (startConfig question)).2

/-- Whether a message is an assistant reply or a tool result (the only kinds
the graph nodes ever append). -/
def isDialogue : Msg → Bool
  | Msg.ai _ _ => true
  | Msg.tool _ _ => true
  | _ => false

/-- The persisted conversation shape: the user question first, then only
assistant replies and tool results. -/
def onlyDialogue (q : String) (msgs : List Msg) : Prop :=
  msgs.head? = some (Msg.human q) ∧ ∀ m ∈ msgs.tail, isDialogue m = true

/-- The nodes whose update writes the schema field. -/
def writesSchema : Node → Bool
  | Node.get_schema => true
  | Node.get_schema_description => true
  | _ => false

/-- The nodes reachable once the Planner phase has begun. -/
def loopNode (n : Node) : Prop :=
  n = Node.get_sql_query ∨ n = Node.tools ∨ n = Node.END

lemma stepNode_messages (env : Env) (n : Node) (s : AgentState) :
    ∃ extra, (stepNode env n s).messages = s.messages ++ extra ∧
      ∀ m ∈ extra, isDialogue m = true := by
  cases n with
  | get_schema => exact ⟨[], by simp [stepNode, get_schema], by simp⟩
  | get_schema_description =>
      exact ⟨[], by simp [stepNode, get_schema_description], by simp⟩
  | get_sql_query =>
      refine ⟨[Msg.ai (env.planner (plannerPrompt s)).1
        (env.planner (plannerPrompt s)).2], rfl, ?_⟩
      simp [isDialogue]
  | tools =>
      refine ⟨(latestToolCalls s.messages).map
        (fun tc => Msg.tool (execTool env tc) tc.id), rfl, ?_⟩
      intro m hm
      obtain ⟨tc, -, rfl⟩ := List.mem_map.mp hm
      simp [isDialogue]
  | END => exact ⟨[], by simp [stepNode], by simp⟩

lemma stepConfig_snd (env : Env) (c : Node × AgentState) :
    (stepConfig env c).2 = stepNode env c.1 c.2 := rfl

lemma run_messages_prefix (env : Env) (fuel : Nat) (c : Node × AgentState) :
    c.2.messages <+: (run env fuel c).2.messages := by
  induction fuel generalizing c with
  | zero => simp [run]
  | succ k ih =>
      rw [run]
      by_cases h : c.1 = Node.END
      · rw [if_pos h]
      · rw [if_neg h]
        obtain ⟨extra, he, -⟩ := stepNode_messages env c.1 c.2
        have h1 : c.2.messages <+: (stepConfig env c).2.messages :=
          ⟨extra, by rw [stepConfig_snd, he]⟩
        exact h1.trans (ih _)

lemma onlyDialogue_append (q : String) (msgs extra : List Msg)
    (h : onlyDialogue q msgs) (hx : ∀ m ∈ extra, isDialogue m = true) :
    onlyDialogue q (msgs ++ extra) := by
  obtain ⟨h1, h2⟩ := h
  cases msgs with
  | nil => simp at h1
  | cons a rest =>
      simp only [List.head?_cons, Option.some.injEq] at h1
      subst h1
      refine ⟨rfl, ?_⟩
      intro m hm
      simp only [List.cons_append, List.tail_cons] at hm
      rcases List.mem_append.mp hm with h' | h'
      · exact h2 m h'
      · exact hx m h'

lemma run_onlyDialogue (env : Env) (q : String) (fuel : Nat)
    (c : Node × AgentState) (h : onlyDialogue q c.2.messages) :
    onlyDialogue q (run env fuel c).2.messages := by
  induction fuel generalizing c with
  | zero => simpa [run] using h
  | succ k ih =>
      rw [run]
      by_cases hE : c.1 = Node.END
      · rwa [if_pos hE]
      · rw [if_neg hE]
        refine ih _ ?_
        obtain ⟨extra, he, hx⟩ := stepNode_messages env c.1 c.2
        rw [stepConfig_snd, he]
        exact onlyDialogue_append q _ _ h hx

lemma stepNode_schema_of_loop (env : Env) (n : Node) (s : AgentState)
    (h : writesSchema n = false) : (stepNode env n s).schema = s.schema := by
  cases n with
  | get_schema => simp [writesSchema] at h
  | get_schema_description => simp [writesSchema] at h
  | get_sql_query => rfl
  | tools => rfl
  | END => rfl

lemma loopNode_not_writes (n : Node) (h : loopNode n) : writesSchema n = false := by
  rcases h with rfl | rfl | rfl <;> rfl

lemma nextNode_of_loop (n : Node) (s : AgentState) (h : loopNode n) :
    loopNode (nextNode n s) := by
  rcases h with rfl | rfl | rfl
  · show loopNode (tools_condition s)
    unfold tools_condition
    by_cases h' : latestToolCalls s.messages = []
    · rw [if_pos h']; exact Or.inr (Or.inr rfl)
    · rw [if_neg h']; exact Or.inr (Or.inl rfl)
  · exact Or.inl rfl
  · exact Or.inr (Or.inr rfl)

lemma run_schema_of_loop (env : Env) (fuel : Nat) (c : Node × AgentState)
    (h : loopNode c.1) : (run env fuel c).2.schema = c.2.schema := by
  induction fuel generalizing c with
  | zero => simp [run]
  | succ k ih =>
      rw [run]
      by_cases hE : c.1 = Node.END
      · rw [if_pos hE]
      · rw [if_neg hE]
        rw [ih _ (nextNode_of_loop c.1 _ h), stepConfig_snd,
          stepNode_schema_of_loop env c.1 c.2 (loopNode_not_writes c.1 h)]

lemma runTrace_of_loop (env : Env) (fuel : Nat) (c : Node × AgentState)
    (h : loopNode c.1) :
    (runTrace env fuel c).filter (fun n => writesSchema n) = [] := by
  induction fuel generalizing c with
  | zero => simp [runTrace]
  | succ k ih =>
      rw [runTrace]
      by_cases hE : c.1 = Node.END
      · rw [if_pos hE]; rfl
      · rw [if_neg hE, List.filter_cons,
          loopNode_not_writes c.1 h]
        simpa using ih _ (nextNode_of_loop c.1 _ h)

lemma listGetD_zero {α} (r : List α) (d : α) : r.getD 0 d = r.headD d := by
  cases r <;> rfl

lemma listGetD_succ_tail {α} (r : List α) (i : Nat) (d : α) :
    r.getD (i + 1) d = r.tail.getD i d := by
  cases r <;> simp [List.getD]

lemma listGetD_map_lt {α β} (f : α → β) (l : List α) (i : Nat) (d : α) (d' : β)
    (hi : i < l.length) : (l.map f).getD i d' = f (l.getD i d) := by
  induction l generalizing i with
  | nil => simp at hi
  | cons a t ih =>
      cases i with
      | zero => rfl
      | succ j =>
          simp only [List.map_cons, List.getD_cons_succ]
          exact ih j (by simpa using hi)

lemma zipCols_all_nonempty (k : Nat)
    (rest : List (List PyVal)) (h : ∀ r ∈ rest, k + 1 ≤ r.length) :
    rest.all (fun r => !r.isEmpty) = true := by
  rw [List.all_eq_true]
  intro r hr
  have := h r hr
  cases r with
  | nil => simp at this
  | cons a t => simp

lemma zipCols_length_le (l : List PyVal) (rest : List (List PyVal)) :
    (zipCols l rest).length ≤ l.length := by
  induction l generalizing rest with
  | nil => simp [zipCols]
  | cons x xs ih =>
      rw [zipCols]
      by_cases h : rest.all (fun r => !r.isEmpty)
      · rw [if_pos h]
        simpa using ih (rest.map List.tail)
      · rw [if_neg h]
        simp

lemma length_tail_of_le {α} (k : Nat) (r : List α) (h : k + 1 ≤ r.length) :
    k ≤ r.tail.length := by
  cases r with
  | nil => simp at h
  | cons a t => simpa using Nat.lt_succ_iff.mp (Nat.lt_of_lt_of_le (Nat.lt_succ_self k) h)

lemma zipCols_length (l : List PyVal) (rest : List (List PyVal))
    (h : ∀ r ∈ rest, l.length ≤ r.length) :
    (zipCols l rest).length = l.length := by
  induction l generalizing rest with
  | nil => simp [zipCols]
  | cons x xs ih =>
      rw [zipCols, if_pos (zipCols_all_nonempty xs.length rest (by simpa using h))]
      simp only [List.length_cons, Nat.add_left_inj]
      refine ih (rest.map List.tail) ?_
      intro r' hr'
      obtain ⟨r, hr, rfl⟩ := List.mem_map.mp hr'
      exact length_tail_of_le xs.length r (by simpa using h r hr)

lemma zipCols_getD (l : List PyVal) (rest : List (List PyVal)) (i : Nat)
    (h : ∀ r ∈ rest, l.length ≤ r.length) (hi : i < l.length) :
    (zipCols l rest).getD i dflt
      = PyVal.tuple (l.getD i dflt :: rest.map (fun r => r.getD i dflt)) := by
  induction l generalizing rest i with
  | nil => simp at hi
  | cons x xs ih =>
      rw [zipCols, if_pos (zipCols_all_nonempty xs.length rest (by simpa using h))]
      cases i with
      | zero =>
          simp only [List.getD_cons_zero]
          have : rest.map (fun r => r.getD 0 dflt) = rest.map (fun r => r.headD dflt) := by
            refine List.map_congr_left ?_
            intro r _
            exact listGetD_zero r dflt
          rw [this]
      | succ j =>
          simp only [List.getD_cons_succ]
          rw [ih (rest.map List.tail) j ?hle (by simpa using hi)]
          · have : (rest.map List.tail).map (fun r => r.getD j dflt)
                = rest.map (fun r => r.getD (j + 1) dflt) := by
              rw [List.map_map]
              refine List.map_congr_left ?_
              intro r _
              exact (listGetD_succ_tail r j dflt).symm
            rw [this]
          case hle =>
            intro r' hr'
            obtain ⟨r, hr, rfl⟩ := List.mem_map.mp hr'
            exact length_tail_of_le xs.length r (by simpa using h r hr)

lemma zipCols_mem (l : List PyVal) (rest : List (List PyVal)) :
    ∀ v ∈ zipCols l rest, ∃ x vals, v = PyVal.tuple (x :: vals) ∧ x ∈ l ∧
      vals.length = rest.length := by
  induction l generalizing rest with
  | nil => simp [zipCols]
  | cons x xs ih =>
      intro v hv
      rw [zipCols] at hv
      by_cases hall : rest.all (fun r => !r.isEmpty)
      · rw [if_pos hall] at hv
        rcases List.mem_cons.mp hv with rfl | hv'
        · exact ⟨x, rest.map (fun r => r.headD dflt), rfl, List.mem_cons_self x xs,
            by simp⟩
        · obtain ⟨x', vals, hveq, hx, hlen⟩ := ih (rest.map List.tail) v hv'
          exact ⟨x', vals, hveq, List.mem_cons_of_mem x hx, by simpa using hlen⟩
      · rw [if_neg hall] at hv
        simp at hv

/-- A store on which every query succeeds with one sample row. -/
def okStore : Store := fun _ => QueryOutcome.ok [[PyVal.str "A", PyVal.intV 1]]

/-- A store on which every query raises a sqlite3.Error. -/
def errStore : Store := fun _ => QueryOutcome.err "no such table: movie"

/-- Discovery results of a two-column movies table. -/
def colsW : List (List PyVal) :=
  [[PyVal.str "title", PyVal.str "TEXT"], [PyVal.str "budget", PyVal.str "TEXT"]]

/-- Two sample rows of that table. -/
def rowsW : List (List PyVal) :=
  [[PyVal.str "A", PyVal.intV 1], [PyVal.str "B", PyVal.intV 2]]

/-- A store answering the two discovery queries of the movies table. -/
def storeMovies : Store := fun q =>
  if q = SQL_EXAMPLE_QUERY then QueryOutcome.ok rowsW else QueryOutcome.ok colsW

/-- A store whose schema-discovery query fails with message x. -/
def storeErrSchema : Store := fun q =>
  if q = SQL_EXAMPLE_QUERY then QueryOutcome.ok [[PyVal.intV 1, PyVal.intV 2]]
  else QueryOutcome.err "x"

/-- A failing sql_connector tool request. -/
def tcSql : ToolCall := { id := "call-1", name := "sql_connector", args := "SELEC" }

/-- A web-search tool request. -/
def tcSearch : ToolCall :=
  { id := "call-2", name := "duckduckgo_results_json", args := "movie budget" }

/-- An environment whose planner answers directly, with no tool request. -/
def envAnswer : Env :=
  { store := errStore, search := fun _ => "result",
    planner := fun _ => ("final answer", []), describer := fun _ => "narrative" }

/-- An environment whose planner requests one tool call. -/
def envOneTool : Env := { envAnswer with planner := fun _ => ("", [tcSql]) }

/-- An environment whose planner requests two simultaneous tool calls. -/
def envTwoTools : Env := { envAnswer with planner := fun _ => ("", [tcSql, tcSearch]) }

/-- A state whose latest assistant entry requests two tools. -/
def stateTwoCalls : AgentState :=
  { schema := none, messages := [Msg.human "q", Msg.ai "" [tcSql, tcSearch]] }

/-- A state whose latest assistant entry is a plain answer. -/
def stateNoCall : AgentState :=
  { schema := none, messages := [Msg.human "q", Msg.ai "done" []] }

/-- C1: after every Planner (get_sql_query) step the graph routes on the just
produced assistant entry — at least one tool request sends control to the
tools node, zero tool requests send it to END — and the tools node always
hands control back to the Planner, never to END. -/
theorem planner_routing (env : Env) (s t : AgentState) :
    (1 ≤ (latestToolCalls (stepNode env Node.get_sql_query s).messages).length →
        (stepConfig env (Node.get_sql_query, s)).1 = Node.tools) ∧
    ((latestToolCalls (stepNode env Node.get_sql_query s).messages).length = 0 →
        (stepConfig env (Node.get_sql_query, s)).1 = Node.END) ∧
    (stepConfig env (Node.tools, t)).1 = Node.get_sql_query ∧
    (stepConfig env (Node.tools, t)).1 ≠ Node.END := by
  have hc : (stepConfig env (Node.get_sql_query, s)).1
      = tools_condition (stepNode env Node.get_sql_query s) := rfl
  have ht : (stepConfig env (Node.tools, t)).1 = Node.get_sql_query := rfl
  refine ⟨?_, ?_, ht, ?_⟩
  · intro h
    rw [hc, tools_condition,
      if_neg (List.ne_nil_of_length_pos (Nat.lt_of_lt_of_le Nat.zero_lt_one h))]
  · intro h
    rw [hc, tools_condition, if_pos (List.length_eq_zero.mp h)]
  · rw [ht]
    exact fun h => Node.noConfusion h

/-- C1 witness: the routing theorem applied to concrete planners producing
one, two and zero tool requests. -/
theorem planner_routing_witness :
    (1 ≤ (latestToolCalls
        (stepNode envOneTool Node.get_sql_query stateNoCall).messages).length ∧
      (stepConfig envOneTool (Node.get_sql_query, stateNoCall)).1 = Node.tools) ∧
    (1 ≤ (latestToolCalls
        (stepNode envTwoTools Node.get_sql_query stateNoCall).messages).length ∧
      (stepConfig envTwoTools (Node.get_sql_query, stateNoCall)).1 = Node.tools) ∧
    ((latestToolCalls
        (stepNode envAnswer Node.get_sql_query stateNoCall).messages).length = 0 ∧
      (stepConfig envAnswer (Node.get_sql_query, stateNoCall)).1 = Node.END) ∧
    (stepConfig envAnswer (Node.tools, stateNoCall)).1 = Node.get_sql_query :=
  ⟨⟨by decide, (planner_routing envOneTool stateNoCall stateNoCall).1 (by decide)⟩,
   ⟨by decide, (planner_routing envTwoTools stateNoCall stateNoCall).1 (by decide)⟩,
   ⟨by decide, (planner_routing envAnswer stateNoCall stateNoCall).2.1 (by decide)⟩,
   (planner_routing envAnswer stateNoCall stateNoCall).2.2.1⟩

/-- C2: sql_connector is a total function of the engine outcome — it returns
the materialized rows on success and the descriptive error string on any
engine-level failure, and the tools node hands that error string verbatim to
the conversation as the tool result of the failing request. -/
theorem sql_connector_error_as_data (env : Env) (q e : String)
    (rows : List (List PyVal)) (s : AgentState) :
    (env.store q = QueryOutcome.ok rows →
        sql_connector env.store q = PyVal.listV (rows.map PyVal.tuple)) ∧
    (env.store q = QueryOutcome.err e →
        sql_connector env.store q = PyVal.str (sqlErrorText e)) ∧
    (∀ tc ∈ latestToolCalls s.messages, tc.name = "sql_connector" →
        env.store tc.args = QueryOutcome.err e →
        Msg.tool (sqlErrorText e) tc.id ∈ (stepNode env Node.tools s).messages) := by
  refine ⟨fun h => by simp [sql_connector, h], fun h => by simp [sql_connector, h], ?_⟩
  intro tc htc hname herr
  show _ ∈ (tools_node env s).messages
  unfold tools_node add_messages
  refine List.mem_append_right _ (List.mem_map.mpr ⟨tc, htc, ?_⟩)
  rw [execTool, if_pos hname]
  simp [sql_connector, herr, pyToStr]

/-- C2 witness: a malformed query against a concrete store — the adapter
returns the error string as a value, and the tools node appends it verbatim
as the result of the originating request. -/
theorem sql_connector_error_as_data_witness :
    errStore "SELEC" = QueryOutcome.err "no such table: movie" ∧
    sql_connector errStore "SELEC"
      = PyVal.str (sqlErrorText "no such table: movie") ∧
    tcSql ∈ latestToolCalls stateTwoCalls.messages ∧
    Msg.tool (sqlErrorText "no such table: movie") tcSql.id
      ∈ (stepNode envOneTool Node.tools stateTwoCalls).messages :=
  ⟨rfl,
   (sql_connector_error_as_data envOneTool "SELEC" "no such table: movie" []
      stateTwoCalls).2.1 rfl,
   by decide,
   (sql_connector_error_as_data envOneTool "SELEC" "no such table: movie" []
      stateTwoCalls).2.2 tcSql (by decide) rfl rfl⟩

/-- C3: the message sequence is append-only — every node execution and every
fuel-bounded run extend the sequence only at its end, so no prior entry is
removed, altered or reordered and the length never shrinks. -/
theorem messages_append_only (env : Env) (n : Node) (s : AgentState)
    (fuel : Nat) (c : Node × AgentState) :
    s.messages <+: (stepNode env n s).messages ∧
    c.2.messages <+: (run env fuel c).2.messages := by
  refine ⟨?_, run_messages_prefix env fuel c⟩
  obtain ⟨extra, he, -⟩ := stepNode_messages env n s
  exact ⟨extra, he.symm⟩

lemma all_iter_tuples_isSome (rows : List (List PyVal)) :
    ((rows.map PyVal.tuple).all fun e => (pyIter e).isSome) = true := by
  rw [List.all_eq_true]
  intro v hv
  obtain ⟨r, -, rfl⟩ := List.mem_map.mp hv
  rfl

lemma iter_tuples_getD (rows : List (List PyVal)) :
    (rows.map PyVal.tuple).map (fun e => (pyIter e).getD []) = rows := by
  rw [List.map_map,
    show rows.map ((fun e => (pyIter e).getD []) ∘ PyVal.tuple) = rows.map id from
      List.map_congr_left (fun r _ => rfl),
    List.map_id]

lemma schemaZip_listV_rows (A : List PyVal) (rows : List (List PyVal)) :
    schemaZip (PyVal.listV A) (PyVal.listV (rows.map PyVal.tuple))
      = some (PyVal.listV (zipCols A rows)) := by
  show (if ((rows.map PyVal.tuple).all fun e => (pyIter e).isSome) = true then
      some (PyVal.listV (pyZip
        (A :: (rows.map PyVal.tuple).map (fun e => (pyIter e).getD []))))
    else none) = some (PyVal.listV (zipCols A rows))
  rw [if_pos (all_iter_tuples_isSome rows), iter_tuples_getD rows]
  rfl

lemma schemaZip_str_rows (s : String) (rows : List (List PyVal)) :
    schemaZip (PyVal.str s) (PyVal.listV (rows.map PyVal.tuple))
      = some (PyVal.listV
          (zipCols (s.data.map (fun c => PyVal.str (String.mk [c]))) rows)) := by
  show (if ((rows.map PyVal.tuple).all fun e => (pyIter e).isSome) = true then
      some (PyVal.listV (pyZip
        (s.data.map (fun c => PyVal.str (String.mk [c]))
          :: (rows.map PyVal.tuple).map (fun e => (pyIter e).getD []))))
    else none)
    = some (PyVal.listV
        (zipCols (s.data.map (fun c => PyVal.str (String.mk [c]))) rows))
  rw [if_pos (all_iter_tuples_isSome rows), iter_tuples_getD rows]
  rfl

/-- C4: on a successful pair of discovery results whose sample rows each
carry one value per column, get_schema produces the zipped structure whose
i-th element pairs the i-th column's (name, type) tuple with the i-th value
of every sample row, in row order, one element per column. -/
theorem get_schema_transposed (store : Store) (cols rows : List (List PyVal))
    (hs : store SQL_SCHEMA_QUERY = QueryOutcome.ok cols)
    (he : store SQL_EXAMPLE_QUERY = QueryOutcome.ok rows)
    (hlen : ∀ r ∈ rows, r.length = cols.length) :
    ∃ L, get_schema_result store = some (PyVal.listV L) ∧
      L.length = cols.length ∧
      ∀ i, i < cols.length →
        L.getD i dflt
          = PyVal.tuple (PyVal.tuple (cols.getD i [])
              :: rows.map (fun r => r.getD i dflt)) := by
  have hb : ∀ r ∈ rows, (cols.map PyVal.tuple).length ≤ r.length := by
    intro r hr
    rw [List.length_map, ← hlen r hr]
  refine ⟨zipCols (cols.map PyVal.tuple) rows, ?_, ?_, ?_⟩
  · have h1 : sql_connector store SQL_SCHEMA_QUERY
        = PyVal.listV (cols.map PyVal.tuple) := by simp [sql_connector, hs]
    have h2 : sql_connector store SQL_EXAMPLE_QUERY
        = PyVal.listV (rows.map PyVal.tuple) := by simp [sql_connector, he]
    rw [get_schema_result, h1, h2, schemaZip_listV_rows]
  · rw [zipCols_length _ _ hb, List.length_map]
  · intro i hi
    rw [zipCols_getD _ _ i hb (by simpa using hi),
      listGetD_map_lt PyVal.tuple cols i [] dflt hi]

/-- C4 witness: the transposition theorem applied to a concrete two-column,
two-row discovery result. -/
theorem get_schema_transposed_witness :
    storeMovies SQL_SCHEMA_QUERY = QueryOutcome.ok colsW ∧
    storeMovies SQL_EXAMPLE_QUERY = QueryOutcome.ok rowsW ∧
    (∀ r ∈ rowsW, r.length = colsW.length) ∧
    (∃ L, get_schema_result storeMovies = some (PyVal.listV L) ∧
      L.length = colsW.length ∧
      ∀ i, i < colsW.length →
        L.getD i dflt
          = PyVal.tuple (PyVal.tuple (colsW.getD i [])
              :: rowsW.map (fun r => r.getD i dflt))) :=
  ⟨by decide, by decide, by decide,
   get_schema_transposed storeMovies colsW rowsW (by decide) (by decide) (by decide)⟩

/-- C5 counterexample: the claim says the connection is closed on scope exit,
but the sqlite3 connection context manager the source uses only ends the
transaction — no close event occurs in the call trace, on success or on
failure. -/
theorem sql_connector_close_counterexample :
    DbEvent.close ∉ sql_connector_events okStore SQL_EXAMPLE_QUERY ∧
    DbEvent.close ∉ sql_connector_events errStore "SELEC" := by decide

/-- C5 (amended): every sql_connector call opens exactly one fresh
connection; on success the rows are materialized and the transaction is
committed on scope exit, on an engine failure it is rolled back — but the
connection is never closed. -/
theorem sql_connector_connection_lifecycle (store : Store) (q : String) :
    (sql_connector_events store q).head? = some DbEvent.openConn ∧
    DbEvent.openConn ∉ (sql_connector_events store q).tail ∧
    DbEvent.close ∉ sql_connector_events store q ∧
    (∀ rows, store q = QueryOutcome.ok rows →
        DbEvent.fetchall ∈ sql_connector_events store q ∧
        DbEvent.commit ∈ sql_connector_events store q) ∧
    (∀ e, store q = QueryOutcome.err e →
        DbEvent.rollback ∈ sql_connector_events store q ∧
        DbEvent.fetchall ∉ sql_connector_events store q) := by
  cases hq : store q <;>
    simp [sql_connector_events, hq]

/-- C5 witness: the lifecycle theorem applied to a succeeding and a failing
concrete call. -/
theorem sql_connector_connection_lifecycle_witness :
    okStore SQL_EXAMPLE_QUERY = QueryOutcome.ok [[PyVal.str "A", PyVal.intV 1]] ∧
    (DbEvent.fetchall ∈ sql_connector_events okStore SQL_EXAMPLE_QUERY ∧
      DbEvent.commit ∈ sql_connector_events okStore SQL_EXAMPLE_QUERY) ∧
    errStore "SELEC" = QueryOutcome.err "no such table: movie" ∧
    (DbEvent.rollback ∈ sql_connector_events errStore "SELEC" ∧
      DbEvent.fetchall ∉ sql_connector_events errStore "SELEC") ∧
    DbEvent.close ∉ sql_connector_events okStore SQL_EXAMPLE_QUERY :=
  ⟨rfl,
   (sql_connector_connection_lifecycle okStore SQL_EXAMPLE_QUERY).2.2.2.1 _ rfl,
   rfl,
   (sql_connector_connection_lifecycle errStore "SELEC").2.2.2.2 _ rfl,
   (sql_connector_connection_lifecycle okStore SQL_EXAMPLE_QUERY).2.2.1⟩

/-- C6 counterexample: when the schema-discovery query fails, get_schema does
not pass the Adapter's error result through unchanged — zip iterates the
error string character by character against the sample rows, so the stored
structure is a mangled fragment and the error text appears nowhere in it. -/
theorem get_schema_error_counterexample :
    get_schema_result storeErrSchema
      = some (PyVal.listV [PyVal.tuple [PyVal.str "E", PyVal.intV 1],
          PyVal.tuple [PyVal.str "r", PyVal.intV 2]]) ∧
    get_schema_result storeErrSchema ≠ some (PyVal.str (sqlErrorText "x")) ∧
    PyVal.str (sqlErrorText "x")
      ∉ [PyVal.tuple [PyVal.str "E", PyVal.intV 1],
          PyVal.tuple [PyVal.str "r", PyVal.intV 2]] := by decide

/-- C6 (amended): when the schema-discovery query returns an error string and
the example query returns rows, get_schema does not pass the error through
unchanged — the error text is consumed character-wise by the zip, so every
element of the stored structure starts with a single character of the error
message and the structure is no longer than the error text. -/
theorem get_schema_error_mangled (store : Store) (e : String)
    (rows : List (List PyVal))
    (hs : store SQL_SCHEMA_QUERY = QueryOutcome.err e)
    (he : store SQL_EXAMPLE_QUERY = QueryOutcome.ok rows) :
    ∃ L, get_schema_result store = some (PyVal.listV L) ∧
      L.length ≤ (sqlErrorText e).length ∧
      ∀ v ∈ L, ∃ c vals, v = PyVal.tuple (PyVal.str (String.mk [c]) :: vals) ∧
        c ∈ (sqlErrorText e).data ∧ vals.length = rows.length := by
  have h1 : sql_connector store SQL_SCHEMA_QUERY = PyVal.str (sqlErrorText e) := by
    simp [sql_connector, hs]
  have h2 : sql_connector store SQL_EXAMPLE_QUERY
      = PyVal.listV (rows.map PyVal.tuple) := by simp [sql_connector, he]
  refine ⟨zipCols ((sqlErrorText e).data.map
      (fun c => PyVal.str (String.mk [c]))) rows, ?_, ?_, ?_⟩
  · rw [get_schema_result, h1, h2, schemaZip_str_rows]
  · calc (zipCols ((sqlErrorText e).data.map
          (fun c => PyVal.str (String.mk [c]))) rows).length
        ≤ ((sqlErrorText e).data.map (fun c => PyVal.str (String.mk [c]))).length :=
          zipCols_length_le _ _
      _ = (sqlErrorText e).length := by rw [List.length_map]; rfl
  · intro v hv
    obtain ⟨x, vals, hveq, hx, hvals⟩ := zipCols_mem _ _ v hv
    obtain ⟨c, hc, rfl⟩ := List.mem_map.mp hx
    exact ⟨c, vals, hveq, hc, hvals⟩

/-- C6 amended-claim witness: the mangling theorem applied to the concrete
failing store. -/
theorem get_schema_error_mangled_witness :
    storeErrSchema SQL_SCHEMA_QUERY = QueryOutcome.err "x" ∧
    storeErrSchema SQL_EXAMPLE_QUERY = QueryOutcome.ok [[PyVal.intV 1, PyVal.intV 2]] ∧
    (∃ L, get_schema_result storeErrSchema = some (PyVal.listV L) ∧
      L.length ≤ (sqlErrorText "x").length ∧
      ∀ v ∈ L, ∃ c vals, v = PyVal.tuple (PyVal.str (String.mk [c]) :: vals) ∧
        c ∈ (sqlErrorText "x").data ∧ vals.length = 1) :=
  ⟨by decide, by decide,
   get_schema_error_mangled storeErrSchema "x" [[PyVal.intV 1, PyVal.intV 2]]
     (by decide) (by decide)⟩

/-- C7: over a whole execution the schema field is written exactly twice —
the trace's schema-writing nodes are exactly the Introspector then the
Describer, the Introspector writes the raw zipped structure, the Describer
overwrites it with narrative text, and from the moment the Planner phase
begins no step changes the schema again. -/
theorem schema_written_twice (env : Env) (fuel : Nat) (q : String)
    (s : AgentState) (h : 2 ≤ fuel) :
    (runTrace env fuel (startConfig q)).filter (fun n => writesSchema n)
      = [Node.get_schema, Node.get_schema_description] ∧
    (stepNode env Node.get_schema s).schema = get_schema_result env.store ∧
    (∃ t, (stepNode env Node.get_schema_description s).schema
        = some (PyVal.str t)) ∧
    (∀ c : Node × AgentState, loopNode c.1 →
        (run env fuel c).2.schema = c.2.schema) := by
  refine ⟨?_, rfl, ⟨_, rfl⟩, fun c hc => run_schema_of_loop env fuel c hc⟩
  obtain ⟨k, rfl⟩ : ∃ k, fuel = k + 2 := ⟨fuel - 2, by omega⟩
  rw [runTrace,
    if_neg (show ¬(startConfig q).1 = Node.END from fun hE => Node.noConfusion hE),
    runTrace,
    if_neg (show ¬(stepConfig env (startConfig q)).1 = Node.END from
      fun hE => Node.noConfusion hE),
    List.filter_cons_of_pos, List.filter_cons_of_pos,
    runTrace_of_loop env k (stepConfig env (stepConfig env (startConfig q)))
      (Or.inl rfl)]
  · rfl
  · rfl
  · rfl

/-- C7 witness: the theorem applied at fuel 2 with a concrete environment. -/
theorem schema_written_twice_witness :
    2 ≤ 2 ∧
    (runTrace envAnswer 2 (startConfig "q")).filter (fun n => writesSchema n)
      = [Node.get_schema, Node.get_schema_description] :=
  ⟨by decide, (schema_written_twice envAnswer 2 "q" stateNoCall (by decide)).1⟩

/-- C8: the tools node appends, for every tool request of the latest
assistant entry, one result entry tagged with that request's id — all of
them before control returns, which it always does, to the Planner. -/
theorem tool_requests_answered (env : Env) (s : AgentState) :
    (∀ tc ∈ latestToolCalls s.messages,
        Msg.tool (execTool env tc) tc.id
          ∈ (stepConfig env (Node.tools, s)).2.messages) ∧
    (stepConfig env (Node.tools, s)).2.messages
      = s.messages ++ (latestToolCalls s.messages).map
          (fun tc => Msg.tool (execTool env tc) tc.id) ∧
    (stepConfig env (Node.tools, s)).1 = Node.get_sql_query := by
  refine ⟨?_, rfl, rfl⟩
  intro tc htc
  show _ ∈ (tools_node env s).messages
  exact List.mem_append_right _ (List.mem_map.mpr ⟨tc, htc, rfl⟩)

/-- C8 witness: a turn with two simultaneous requests — both results, tagged
with their request ids, are in the conversation handed back to the
Planner. -/
theorem tool_requests_answered_witness :
    (tcSql ∈ latestToolCalls stateTwoCalls.messages ∧
      Msg.tool (execTool envAnswer tcSql) tcSql.id
        ∈ (stepConfig envAnswer (Node.tools, stateTwoCalls)).2.messages) ∧
    (tcSearch ∈ latestToolCalls stateTwoCalls.messages ∧
      Msg.tool (execTool envAnswer tcSearch) tcSearch.id
        ∈ (stepConfig envAnswer (Node.tools, stateTwoCalls)).2.messages) ∧
    (stepConfig envAnswer (Node.tools, stateTwoCalls)).1 = Node.get_sql_query :=
  ⟨⟨by decide,
    (tool_requests_answered envAnswer stateTwoCalls).1 tcSql (by decide)⟩,
   ⟨by decide,
    (tool_requests_answered envAnswer stateTwoCalls).1 tcSearch (by decide)⟩,
   (tool_requests_answered envAnswer stateTwoCalls).2.2⟩

/-- C9: schema discovery is idempotent — the Introspector's output is a pure
function of the store's answers to the two fixed discovery queries, so two
invocations against an unchanged store yield structurally identical
output. -/
theorem introspection_idempotent (s1 s2 : Store) (e1 e2 : Env)
    (a b : AgentState)
    (hs : s1 SQL_SCHEMA_QUERY = s2 SQL_SCHEMA_QUERY)
    (he : s1 SQL_EXAMPLE_QUERY = s2 SQL_EXAMPLE_QUERY)
    (h1 : e1.store = s1) (h2 : e2.store = s2) :
    get_schema_result s1 = get_schema_result s2 ∧
    (get_schema e1 a).schema = (get_schema e2 b).schema := by
  have q1 : sql_connector s1 SQL_SCHEMA_QUERY = sql_connector s2 SQL_SCHEMA_QUERY := by
    unfold sql_connector
    rw [hs]
  have q2 : sql_connector s1 SQL_EXAMPLE_QUERY
      = sql_connector s2 SQL_EXAMPLE_QUERY := by
    unfold sql_connector
    rw [he]
  have hr : get_schema_result s1 = get_schema_result s2 := by
    unfold get_schema_result
    rw [q1, q2]
  refine ⟨hr, ?_⟩
  show get_schema_result e1.store = get_schema_result e2.store
  rw [h1, h2, hr]

/-- C9 witness: two Introspector invocations against the same concrete store
(in two different environments and states) agree. -/
theorem introspection_idempotent_witness :
    errStore SQL_SCHEMA_QUERY = errStore SQL_SCHEMA_QUERY ∧
    envAnswer.store = errStore ∧
    envOneTool.store = errStore ∧
    (get_schema envAnswer stateNoCall).schema
      = (get_schema envOneTool stateTwoCalls).schema :=
  ⟨rfl, rfl, rfl,
   (introspection_idempotent errStore errStore envAnswer envOneTool stateNoCall
      stateTwoCalls rfl rfl rfl rfl).2⟩

/-- C10: the system-instruction message and the schema-details message exist
only in the prompt get_sql_query hands to the reasoning engine; the persisted
update is the assistant reply alone, and over any whole run the persisted
sequence is the user question followed exclusively by assistant and tool
entries. -/
theorem prompt_messages_transient (env : Env) (fuel : Nat) (q : String) :
    (∀ s : AgentState,
        Msg.system SYSTEM_PROMPT ∈ plannerPrompt s ∧
        Msg.human ("Schema Details: " ++ schemaText s) ∈ plannerPrompt s ∧
        (stepNode env Node.get_sql_query s).messages
          = s.messages ++ [Msg.ai (env.planner (plannerPrompt s)).1
              (env.planner (plannerPrompt s)).2]) ∧
    onlyDialogue q (sql_agent env fuel q).messages := by
  refine ⟨fun s => ⟨List.mem_cons_self _ _,
    List.mem_cons_of_mem _ (List.mem_cons_self _ _), rfl⟩, ?_⟩
  exact run_onlyDialogue env q fuel (startConfig q) ⟨rfl, fun m hm => nomatch hm⟩

end TextToSQL
